import Mathlib

/-!
Verification development for the zskpv3 knowledge-card application.

The repository is a browser application that turns free-form text into a
sequence of AI-generated "knowledge cards".  The parts embedded here are the
pieces with real logic:

* the retry executor `withRetry` of src/services/geminiService.ts,
* the rate-limit error classifier used by it and by the UI error formatter,
* the fenced-code-block extraction step of `generateCardHTML`,
* the workflow controller handlers of the App component
  (handleAnalyze, handleGenerateCard, handleNext) over the
  WorkflowState / DesignBlueprint / GeneratedCard data model,
* the export pipeline's node filter and download file name.

JavaScript strings are modelled as `List Char`; `String.prototype.split`,
`includes` and `trim` are modelled executably below.  Asynchronous operations
are modelled as functions from the attempt number to an `Except` result, and
the retry executor is instrumented to additionally return the number of
invocations of the wrapped operation and the list of waits performed.
-/

set_option maxHeartbeats 1000000

namespace Zskpv3

/-- The backtick character (code point 96). -/
def tick : Char := Char.ofNat 96

/-- Whitespace characters recognised by the trimming step
(the common subset of JavaScript `trim` whitespace). -/
def isJsWS (c : Char) : Bool := c == ' ' || c == '\t' || c == '\n' || c == '\r'

/-- JavaScript `String.prototype.trim` on the character list of a string:
drop whitespace from the front and from the back. -/
def jsTrim (s : List Char) : List Char :=
  ((s.dropWhile isJsWS).reverse.dropWhile isJsWS).reverse

/-- The trim step packaged on `String`. -/
def jsTrimStr (s : String) : String := String.mk (jsTrim s.data)

/-- Fuelled worker for `jsSplit`.  The fuel only serves to make this a
structural recursion; `jsSplit` always supplies enough fuel.  Scanning from
the left: when the separator occurs at the current position, emit a chunk and
continue after it, otherwise move one character to the right. -/
def jsSplitF (sep : List Char) : Nat → List Char → List (List Char)
  | _, [] => [[]]
  | 0, s => [s]
  | f + 1, c :: t =>
    if sep.isPrefixOf (c :: t) then
      [] :: jsSplitF sep f ((c :: t).drop sep.length)
    else
      match jsSplitF sep f t with
      | [] => [[]]
      | x :: r => (c :: x) :: r

/-- JavaScript `String.prototype.split` for a non-empty separator, on
character lists: the list of chunks between successive non-overlapping
occurrences of `sep`, scanned left to right. -/
def jsSplit (sep s : List Char) : List (List Char) := jsSplitF sep s.length s

/-- JavaScript `s.includes(pat)` for a non-empty pattern, phrased through
`jsSplit`: the pattern occurs in `s` iff splitting on it yields at least two
chunks. -/
def jsIncludesStr (s pat : String) : Bool :=
  decide (2 ≤ (jsSplit pat.data s.data).length)

/-- The opening fence label of a markup block. -/
def fenceHtml : List Char := "```html".data

/-- A plain code fence. -/
def fence : List Char := "```".data

/-- The label that distinguishes an html fence from a plain fence. -/
def htmlLabel : List Char := "html".data

/-- The fence-stripping step at the end of `generateCardHTML`
(src/services/geminiService.ts): if the response contains a fence labelled
html, take what stands between it and the next fence; otherwise, if it
contains a plain fence, take what stands between the first two fences;
otherwise keep the text; finally trim.  This mirrors
`html.split('...')[1].split('...')[0]` with the final `html.trim()`
distributed into the branches. -/
def extractChars (text : List Char) : List Char :=
  if 2 ≤ (jsSplit fenceHtml text).length then
    jsTrim ((jsSplit fence ((jsSplit fenceHtml text).getD 1 [])).getD 0 [])
  else if 2 ≤ (jsSplit fence text).length then
    jsTrim ((jsSplit fence ((jsSplit fence text).getD 1 [])).getD 0 [])
  else jsTrim text

/-- Fence extraction packaged on `String`. -/
def extractHTML (text : String) : String := String.mk (extractChars text.data)

/- ### Errors and the retry executor (src/services/geminiService.ts) -/

/-- A thrown JavaScript error value, as far as the code inspects it:
`serializedLower` is `JSON.stringify(error).toLowerCase()`, and `status` /
`code` are the numeric fields consulted by the classifier. -/
structure JsError where
  serializedLower : String
  status : Option Int
  code : Option Int
deriving DecidableEq

/-- The rate-limit classifier inside `withRetry`:
`errorStr.includes('429') || errorStr.includes('quota') ||
error?.status === 429 || error?.code === 429`. -/
def isRateLimit (e : JsError) : Bool :=
  jsIncludesStr e.serializedLower "429" || jsIncludesStr e.serializedLower "quota" ||
  e.status == some 429 || e.code == some 429

/-- The retry executor `withRetry(fn, retries = 3, delay = 3000)`.  The wrapped
asynchronous operation is modelled as a function from the attempt number to
its outcome.  Besides the propagated result, the model returns the number of
invocations of the operation and the list of waits performed (the JS code
awaits `setTimeout(delay)` before each retry and recurses with `retries - 1`
and `delay * 2`). -/
def withRetry {α : Type} (fn : Nat → Except JsError α) (retries delay attempt : Nat) :
    Except JsError α × Nat × List Nat :=
  match fn attempt with
  | Except.ok v => (Except.ok v, 1, [])
  | Except.error e =>
    match retries with
    | 0 => (Except.error e, 1, [])
    | r + 1 =>
      if isRateLimit e then
        ((withRetry fn r (delay * 2) (attempt + 1)).1,
         (withRetry fn r (delay * 2) (attempt + 1)).2.1 + 1,
         delay :: (withRetry fn r (delay * 2) (attempt + 1)).2.2)
      else
        (Except.error e, 1, [])

/- ### Data model (src/types.ts, modelled from src/unnamed/part_000) -/

/-- The closed set of visual style identifiers. -/
inductive CardStyle where
  | Academic
  | Modern
  | Tech
  | Handwritten
  | Business
deriving DecidableEq

/-- Heading/body typeface recommendation pair. -/
structure FontPairing where
  heading : String
  body : String
deriving DecidableEq

/-- One planned card: a title plus its ordered list of points. -/
structure CardOutline where
  title : String
  points : List String
deriving DecidableEq

/-- The design plan produced by document analysis. -/
structure DesignBlueprint where
  style : CardStyle
  themeColor : String
  secondaryColor : String
  fontPairing : FontPairing
  cardOutlines : List CardOutline
  description : String
deriving DecidableEq

/-- The workflow states of the controller. -/
inductive WorkflowState where
  | IDLE
  | ANALYZING
  | BLUEPRINT_READY
  | GENERATING_CARD
  | CARD_READY
  | ERROR
deriving DecidableEq

/-- The most recently rendered card. -/
structure GeneratedCard where
  index : Nat
  html : String
  title : String
deriving DecidableEq

/- ### Card renderer (generateCardHTML of src/services/geminiService.ts) -/

/-- The TypeError thrown by `blueprint.cardOutlines[cardIndex].title` when the
index is out of bounds (`cardOutlines[cardIndex]` is `undefined`).
`JSON.stringify` of an Error object yields the two brace characters, which
contain neither a 429 nor a quota marker, and the error carries no
status/code field. -/
def typeErrorUndefinedTitle : JsError :=
  { serializedLower := "\x7b\x7d", status := none, code := none }

/-- One attempt of the operation wrapped by `withRetry` inside
`generateCardHTML`: reading `blueprint.cardOutlines[cardIndex]` and then
`card.title` faults before any request when the index is out of bounds;
otherwise the external call's raw text (modelled by `apiResponses attempt`)
is put through fence extraction. -/
def generateCardBody (bp : DesignBlueprint) (cardIndex : Nat)
    (apiResponses : Nat → Except JsError String) (attempt : Nat) :
    Except JsError String :=
  match bp.cardOutlines.get? cardIndex with
  | none => Except.error typeErrorUndefinedTitle
  | some _ =>
    match apiResponses attempt with
    | Except.error e => Except.error e
    | Except.ok raw => Except.ok (extractHTML raw)

/-- The renderer `generateCardHTML(blueprint, cardIndex)`: the attempt body wrapped by the
retry executor with its default budget (retries 3, delay 3000). -/
def generateCardHTML (bp : DesignBlueprint) (cardIndex : Nat)
    (apiResponses : Nat → Except JsError String) :
    Except JsError String × Nat × List Nat :=
  withRetry (generateCardBody bp cardIndex apiResponses) 3 3000 0

/- ### Workflow controller (App component, src/unnamed/part_002) -/

/-- The component state held by the App: input text, selected style, workflow
state, blueprint, current card, error message, and the export-busy flag. -/
structure AppState where
  inputText : String
  selectedStyle : String
  workflow : WorkflowState
  blueprint : Option DesignBlueprint
  currentCard : Option GeneratedCard
  error : Option String
  isDownloading : Bool
deriving DecidableEq

/-- The helper `formatErrorMessage`: a quota message when the serialized error mentions
429 or quota, a generic message otherwise. -/
def formatErrorMessage (err : JsError) : String :=
  if jsIncludesStr err.serializedLower "429" || jsIncludesStr err.serializedLower "quota" then
    "API 调用次数超限 (Quota Exceeded)。系统已尝试自动重试，但配额已耗尽。请等待 1 分钟后重试。"
  else
    "生成过程出错，请检查输入或重试。"

/-- The synchronous part of `handleAnalyze`: return early when the trimmed
input is empty, otherwise set the workflow to ANALYZING, clear the error and
start the analysis request.  The boolean records whether a request was
issued. -/
def handleAnalyzeStart (s : AppState) : AppState × Bool :=
  if jsTrimStr s.inputText = "" then (s, false)
  else ({ s with workflow := WorkflowState.ANALYZING, error := none }, true)

/-- A complete run of `handleAnalyze`, given the outcome the analysis request
would resolve with: on success store the blueprint and go to BLUEPRINT_READY,
on failure store the formatted error message and go back to IDLE. -/
def handleAnalyzeRun (s : AppState) (result : Except JsError DesignBlueprint) :
    AppState × Bool :=
  if jsTrimStr s.inputText = "" then (s, false)
  else
    match result with
    | Except.ok bp =>
      ({ s with blueprint := some bp, error := none,
                workflow := WorkflowState.BLUEPRINT_READY }, true)
    | Except.error e =>
      ({ s with error := some (formatErrorMessage e),
                workflow := WorkflowState.IDLE }, true)

/-- The continuation of `handleGenerateCard` once the `generateCardHTML`
promise settles.  On success the code reads
`blueprint.cardOutlines[index].title` while building the new current card; if
that lookup faulted (out-of-bounds index) the surrounding catch stores an
error and returns to BLUEPRINT_READY, leaving the current card untouched. -/
def handleGenerateCardFinish (bp : DesignBlueprint) (index : Nat) (s : AppState)
    (result : Except JsError String) : AppState :=
  match result with
  | Except.ok html =>
    match bp.cardOutlines.get? index with
    | some card =>
      { s with currentCard := some { index := index, html := html, title := card.title },
               workflow := WorkflowState.CARD_READY }
    | none =>
      { s with error := some (formatErrorMessage typeErrorUndefinedTitle),
               workflow := WorkflowState.BLUEPRINT_READY }
  | Except.error e =>
    { s with error := some (formatErrorMessage e),
             workflow := WorkflowState.BLUEPRINT_READY }

/-- A complete run of `handleGenerateCard(index)`, given the outcome the
render request would resolve with: return early when no blueprint is stored;
otherwise go through GENERATING_CARD with the error cleared and finish as
above.  The boolean records whether a render request was started. -/
def handleGenerateCardRun (s : AppState) (index : Nat)
    (result : Except JsError String) : AppState × Bool :=
  match s.blueprint with
  | none => (s, false)
  | some bp =>
    (handleGenerateCardFinish bp index
      { s with workflow := WorkflowState.GENERATING_CARD, error := none } result, true)

/-- A complete run of `handleNext`: only when a blueprint and a current card
exist and the current index is strictly below the last index does it request
the next card. -/
def handleNextRun (s : AppState) (result : Except JsError String) : AppState × Bool :=
  match s.blueprint, s.currentCard with
  | some bp, some card =>
    if card.index < bp.cardOutlines.length - 1 then
      handleGenerateCardRun s (card.index + 1) result
    else (s, false)
  | _, _ => (s, false)

/-- The `disabled` condition of the analyze button in the JSX:
`workflow === 'ANALYZING' || !inputText.trim()`. -/
def analyzeButtonDisabled (s : AppState) : Bool :=
  decide (s.workflow = WorkflowState.ANALYZING) || decide (jsTrimStr s.inputText = "")

/-- The `disabled` condition of the card outline buttons in the JSX:
`workflow === 'GENERATING_CARD'`. -/
def cardButtonsDisabled (s : AppState) : Bool :=
  decide (s.workflow = WorkflowState.GENERATING_CARD)

/- ### Export pipeline (downloadAsImage of src/unnamed/part_002) -/

/-- What happens when the code reads `sheet.cssRules` of a stylesheet-link
node: either the rule list is readable, or the access throws a
SecurityError. -/
inductive SheetAccess where
  | readable
  | throwsSecurityFault
deriving DecidableEq

/-- A DOM node as far as the export filter inspects it: its tag name and its
associated stylesheet (absent for non-link nodes and for link nodes without a
sheet). -/
structure DomNode where
  tagName : String
  sheet : Option SheetAccess
deriving DecidableEq

/-- The node filter passed to the rasterizer: for a LINK node, try to read
`sheet.cssRules` and drop the node (return false) exactly when that access
throws; every other node passes. -/
def exportFilter (node : DomNode) : Bool :=
  if node.tagName = "LINK" then
    match node.sheet with
    | some SheetAccess.readable => true
    | some SheetAccess.throwsSecurityFault => false
    | none => true
  else true

/-- The filesystem-reserved characters replaced in the download name:
the character class of `title.replace(/[\\/:*?"<>|]/g, '_')`. -/
def illegalFilenameChar (c : Char) : Bool :=
  c == '\\' || c == '/' || c == ':' || c == '*' || c == '?' ||
  c == '"' || c == '<' || c == '>' || c == '|'

/-- The sanitized card title: every reserved character replaced by an
underscore. -/
def sanitizeTitle (t : String) : String :=
  String.mk (t.data.map (fun c => if illegalFilenameChar c then '_' else c))

/-- The download file name built by `downloadAsImage`:
`知识卡-` + sanitized title + `.png`. -/
def downloadName (title : String) : String :=
  "知识卡-" ++ sanitizeTitle title ++ ".png"

/- ### Concrete sample data used by the witnesses -/

/-- A sample cover outline. -/
def sampleOutlineCover : CardOutline := { title := "封面", points := [ "要点一" ] }

/-- A sample body outline. -/
def sampleOutlineBody : CardOutline := { title := "正文", points := [ "要点二", "要点三" ] }

/-- A sample blueprint with two card outlines. -/
def sampleBlueprint : DesignBlueprint :=
  { style := CardStyle.Modern, themeColor := "#112233", secondaryColor := "#445566",
    fontPairing := { heading := "Inter", body := "Inter" },
    cardOutlines := [sampleOutlineCover, sampleOutlineBody],
    description := "两张卡片" }

/-- A sample non-rate-limit error. -/
def sampleError : JsError := { serializedLower := "network failure", status := none, code := none }

/-- A sample rate-limit error. -/
def rateLimitError : JsError :=
  { serializedLower := "resource exhausted 429", status := some 429, code := none }

/-- A sample idle state with non-empty input. -/
def sampleState : AppState :=
  { inputText := "文档内容", selectedStyle := "Auto", workflow := WorkflowState.IDLE,
    blueprint := none, currentCard := none, error := none, isDownloading := false }

/-- The sample state while an analysis request is in flight. -/
def analyzingState : AppState := { sampleState with workflow := WorkflowState.ANALYZING }

/-- The sample state after a successful analysis. -/
def readyState : AppState :=
  { sampleState with
    workflow := WorkflowState.BLUEPRINT_READY
    blueprint := some sampleBlueprint }

/-- The sample state while card `i` is displayed. -/
def cardState (i : Nat) : AppState :=
  { readyState with
    workflow := WorkflowState.CARD_READY
    currentCard := some { index := i, html := "<p>x</p>", title := "t" } }

/-- A sample idle state whose input is whitespace only. -/
def wsState : AppState := { sampleState with inputText := "   " }

end Zskpv3

namespace Zskpv3

/- ### Lemmas about the split scanner -/

theorem prefixCons {a b : Char} {l₁ l₂ : List Char} :
    (a :: l₁) <+: (b :: l₂) ↔ a = b ∧ l₁ <+: l₂ := by
  constructor
  · rintro ⟨t, ht⟩
    injection ht with h1 h2
    exact ⟨h1, t, h2⟩
  · rintro ⟨rfl, t, ht⟩
    exact ⟨t, by rw [List.cons_append, ht]⟩

theorem isPrefixOf_eq_true {l₁ l₂ : List Char} :
    l₁.isPrefixOf l₂ = true ↔ l₁ <+: l₂ := by
  induction l₁ generalizing l₂ with
  | nil => simp [List.isPrefixOf]
  | cons a as IH =>
    cases l₂ with
    | nil => simp [List.isPrefixOf]
    | cons b bs => simp [List.isPrefixOf, prefixCons, IH]

theorem isPrefixOf_eq_false_of_not {l₁ l₂ : List Char} (h : ¬ l₁ <+: l₂) :
    l₁.isPrefixOf l₂ = false := by
  cases hb : l₁.isPrefixOf l₂
  · rfl
  · exact absurd (isPrefixOf_eq_true.mp hb) h

theorem jsSplitF_congr (sep : List Char) (hsep : sep ≠ []) :
    ∀ (f : Nat) (s : List Char), s.length ≤ f → jsSplitF sep f s = jsSplit sep s := by
  intro f
  induction f using Nat.strong_induction_on with
  | _ f IH =>
    intro s hs
    cases s with
    | nil => cases f <;> rfl
    | cons c t =>
      cases f with
      | zero => simp at hs
      | succ g =>
        have hg : t.length ≤ g := by simpa using hs
        have hseplen : 1 ≤ sep.length := List.length_pos.mpr hsep
        have hdrop : ((c :: t).drop sep.length).length ≤ t.length := by
          simp only [List.length_drop, List.length_cons]
          omega
        show jsSplitF sep (g + 1) (c :: t) = jsSplitF sep (c :: t).length (c :: t)
        simp only [List.length_cons]
        rw [jsSplitF, jsSplitF]
        by_cases hpf : sep.isPrefixOf (c :: t)
        · simp only [if_pos hpf]
          rw [IH g (by omega) _ (hdrop.trans hg), IH t.length (by omega) _ hdrop]
        · simp only [if_neg hpf]
          rw [IH g (by omega) t hg, IH t.length (by omega) t le_rfl]

theorem jsSplit_cons_pos (sep : List Char) (hsep : sep ≠ []) (c : Char) (t : List Char)
    (h : sep.isPrefixOf (c :: t) = true) :
    jsSplit sep (c :: t) = [] :: jsSplit sep ((c :: t).drop sep.length) := by
  have hseplen : 1 ≤ sep.length := List.length_pos.mpr hsep
  show jsSplitF sep (c :: t).length (c :: t) = _
  simp only [List.length_cons]
  rw [jsSplitF, if_pos h]
  congr 1
  exact jsSplitF_congr sep hsep t.length _
    (by simp only [List.length_drop, List.length_cons]; omega)

theorem jsSplit_cons_neg (sep : List Char) (c : Char) (t : List Char)
    (h : sep.isPrefixOf (c :: t) = false) :
    jsSplit sep (c :: t) =
      match jsSplit sep t with
      | [] => [[]]
      | x :: r => (c :: x) :: r := by
  show jsSplitF sep (c :: t).length (c :: t) = _
  simp only [List.length_cons]
  rw [jsSplitF, if_neg (by simp [h])]
  rfl

theorem jsSplit_ne_nil (sep s : List Char) : jsSplit sep s ≠ [] := by
  cases s with
  | nil => simp [jsSplit, jsSplitF]
  | cons c t =>
    show jsSplitF sep (c :: t).length (c :: t) ≠ []
    simp only [List.length_cons]
    rw [jsSplitF]
    split
    · simp
    · split <;> simp

theorem jsSplit_consume (sep r : List Char) (hsep : sep ≠ []) :
    jsSplit sep (sep ++ r) = [] :: jsSplit sep r := by
  obtain ⟨a, sep2, rfl⟩ : ∃ a sep2, sep = a :: sep2 := by
    cases sep with
    | nil => exact absurd rfl hsep
    | cons x xs => exact ⟨x, xs, rfl⟩
  rw [List.cons_append, jsSplit_cons_pos _ hsep _ _
    (isPrefixOf_eq_true.mpr ⟨r, by simp⟩)]
  congr 1
  congr 1
  rw [← List.cons_append]
  exact List.drop_left _ _

theorem jsSplit_skip (sep : List Char) (a : Char) (hsep : sep.head? = some a) :
    ∀ (s : List Char), (∀ c ∈ s, c ≠ a) → ∀ (r : List Char),
      jsSplit sep (s ++ r) = (s ++ (jsSplit sep r).headD []) :: (jsSplit sep r).tail := by
  intro s
  induction s with
  | nil =>
    intro _ r
    simp only [List.nil_append]
    obtain ⟨x, xs, hx⟩ : ∃ x xs, jsSplit sep r = x :: xs := by
      cases hxx : jsSplit sep r with
      | nil => exact absurd hxx (jsSplit_ne_nil sep r)
      | cons x xs => exact ⟨x, xs, rfl⟩
    rw [hx]
    rfl
  | cons c s2 IH =>
    intro hc r
    have hca : c ≠ a := hc c (by simp)
    obtain ⟨sep2, rfl⟩ : ∃ sep2, sep = a :: sep2 := by
      cases sep with
      | nil => simp at hsep
      | cons x xs =>
        have hx : x = a := by simpa using hsep
        exact ⟨xs, by rw [hx]⟩
    have hpf : (a :: sep2).isPrefixOf (c :: (s2 ++ r)) = false := by
      apply isPrefixOf_eq_false_of_not
      rw [prefixCons]
      rintro ⟨h1, -⟩
      exact hca h1.symm
    rw [List.cons_append, jsSplit_cons_neg _ _ _ hpf,
      IH (fun x hx => hc x (by simp [hx])) r]
    rfl

theorem jsSplit_of_not_infix (sep : List Char) :
    ∀ (s : List Char), ¬ (sep <:+: s) → jsSplit sep s = [s] := by
  intro s
  induction s with
  | nil => intro _; rfl
  | cons c t IH =>
    intro hni
    have hpf : sep.isPrefixOf (c :: t) = false := by
      apply isPrefixOf_eq_false_of_not
      rintro ⟨q, hq⟩
      exact hni ⟨[], q, by simp [hq]⟩
    rw [jsSplit_cons_neg sep c t hpf, IH ?_]
    intro hit
    obtain ⟨p, q, hpq⟩ := hit
    exact hni ⟨c :: p, q, by rw [← hpq]; simp⟩

end Zskpv3

namespace Zskpv3

/- ### Fence-specific split computations -/

theorem fence_eq : fence = [tick, tick, tick] := by decide

theorem fenceHtml_eq : fenceHtml = tick :: tick :: tick :: htmlLabel := by decide

/-- A pattern without backticks that is a prefix of `t` followed by backticks
only is already a prefix of `t`. -/
theorem prefix_strip_ticks (pat : List Char) (hp : ∀ c ∈ pat, c ≠ tick) :
    ∀ (t u : List Char), (∀ c ∈ u, c = tick) → pat <+: (t ++ u) → pat <+: t := by
  induction pat with
  | nil => intro t _ _ _; exact ⟨t, rfl⟩
  | cons p pr IH =>
    intro t u hu hpre
    cases t with
    | nil =>
      exfalso
      simp only [List.nil_append] at hpre
      cases u with
      | nil =>
        obtain ⟨q, hq⟩ := hpre
        simp at hq
      | cons x xs =>
        rw [prefixCons] at hpre
        have hx : x = tick := hu x (by simp)
        exact hp p (by simp) (hpre.1.trans hx)
    | cons c t2 =>
      rw [List.cons_append, prefixCons] at hpre
      rw [prefixCons]
      exact ⟨hpre.1, IH (fun x hx => hp x (by simp [hx])) t2 u hu hpre.2⟩

theorem jsSplit_fenceHtml_fence : jsSplit fenceHtml fence = [fence] := by decide

theorem jsSplit_fence_fence : jsSplit fence fence = [[], []] := by decide

/-- Splitting `s ++ fence` on the html fence leaves it whole
when `s` is backtick-free and does not hide an html label. -/
theorem jsSplit_fenceHtml_after (s : List Char) (hs : ∀ c ∈ s, c ≠ tick) :
    jsSplit fenceHtml (s ++ fence) = [s ++ fence] := by
  rw [jsSplit_skip fenceHtml tick (by decide) s hs fence, jsSplit_fenceHtml_fence]
  simp

theorem jsSplit_fence_close (s : List Char) (hs : ∀ c ∈ s, c ≠ tick) :
    jsSplit fence (s ++ fence) = [s, []] := by
  rw [jsSplit_skip fence tick (by decide) s hs fence, jsSplit_fence_fence]
  simp

theorem jsSplit_fence_inner (s : List Char) (hs : ∀ c ∈ s, c ≠ tick) :
    jsSplit fence s = [s] := by
  have h := jsSplit_skip fence tick (by decide) s hs []
  have hnil : jsSplit fence [] = [[]] := rfl
  rw [List.append_nil, hnil] at h
  simpa using h

theorem jsSplit_fenceHtml_wrap (s : List Char) (hs : ∀ c ∈ s, c ≠ tick) :
    jsSplit fenceHtml (fenceHtml ++ s ++ fence) = [[], s ++ fence] := by
  rw [List.append_assoc, jsSplit_consume fenceHtml _ (by decide),
    jsSplit_fenceHtml_after s hs]

/-- Splitting a plainly fenced text on the html fence leaves it whole when the
inner text is backtick-free and does not start with the html label. -/
theorem jsSplit_fenceHtml_plain (s : List Char) (hs : ∀ c ∈ s, c ≠ tick)
    (hh : ¬ (htmlLabel <+: s)) :
    jsSplit fenceHtml (fence ++ s ++ fence) = [fence ++ s ++ fence] := by
  have hhtml : ¬ (htmlLabel <+: (s ++ fence)) := by
    intro hyp
    exact hh (prefix_strip_ticks htmlLabel (by decide) s fence
      (by rw [fence_eq]; intro c hc; simpa using hc) hyp)
  have h3 : jsSplit fenceHtml (s ++ fence) = [s ++ fence] :=
    jsSplit_fenceHtml_after s hs
  have hpfC : fenceHtml.isPrefixOf (tick :: (s ++ fence)) = false := by
    apply isPrefixOf_eq_false_of_not
    rw [fenceHtml_eq, prefixCons]
    rintro ⟨-, hq⟩
    cases s with
    | cons c s2 =>
      rw [List.cons_append, prefixCons] at hq
      exact hs c (by simp) hq.1.symm
    | nil =>
      rw [List.nil_append, fence_eq, prefixCons] at hq
      obtain ⟨-, hq⟩ := hq
      rw [prefixCons] at hq
      obtain ⟨-, hq⟩ := hq
      obtain ⟨q, hq⟩ := hq
      simp [htmlLabel] at hq
  have hpfB : fenceHtml.isPrefixOf (tick :: tick :: (s ++ fence)) = false := by
    apply isPrefixOf_eq_false_of_not
    rw [fenceHtml_eq, prefixCons]
    rintro ⟨-, hq⟩
    rw [prefixCons] at hq
    obtain ⟨-, hq⟩ := hq
    cases s with
    | cons c s2 =>
      rw [List.cons_append, prefixCons] at hq
      exact hs c (by simp) hq.1.symm
    | nil =>
      rw [List.nil_append, fence_eq, prefixCons] at hq
      obtain ⟨-, hq⟩ := hq
      obtain ⟨q, hq⟩ := hq
      simp [htmlLabel] at hq
  have hpfA : fenceHtml.isPrefixOf (tick :: tick :: tick :: (s ++ fence)) = false := by
    apply isPrefixOf_eq_false_of_not
    rw [fenceHtml_eq, prefixCons]
    rintro ⟨-, hq⟩
    rw [prefixCons] at hq
    obtain ⟨-, hq⟩ := hq
    rw [prefixCons] at hq
    obtain ⟨-, hq⟩ := hq
    exact hhtml hq
  have h2 : jsSplit fenceHtml (tick :: (s ++ fence)) = [tick :: (s ++ fence)] := by
    rw [jsSplit_cons_neg _ _ _ hpfC, h3]
  have h1 : jsSplit fenceHtml (tick :: tick :: (s ++ fence)) =
      [tick :: tick :: (s ++ fence)] := by
    rw [jsSplit_cons_neg _ _ _ hpfB, h2]
  have h0 : jsSplit fenceHtml (tick :: tick :: tick :: (s ++ fence)) =
      [tick :: tick :: tick :: (s ++ fence)] := by
    rw [jsSplit_cons_neg _ _ _ hpfA, h1]
  have hshape : fence ++ s ++ fence = tick :: tick :: tick :: (s ++ fence) := by
    rw [List.append_assoc, fence_eq]
    rfl
  rw [hshape, h0]

theorem jsSplit_fence_plain (s : List Char) (hs : ∀ c ∈ s, c ≠ tick) :
    jsSplit fence (fence ++ s ++ fence) = [[], s, []] := by
  rw [List.append_assoc, jsSplit_consume fence _ (by decide), jsSplit_fence_close s hs]

end Zskpv3

namespace Zskpv3

/- ### Retry executor theorems -/

/-- Generalisation of the all-rate-limited run of `withRetry` over the attempt
counter, for the induction. -/
theorem withRetry_rate_limited_aux {α : Type} (fn : Nat → Except JsError α) :
    ∀ (retries attempt delay : Nat),
      (∀ i, attempt ≤ i → i ≤ attempt + retries →
        ∃ e, fn i = Except.error e ∧ isRateLimit e = true) →
      withRetry fn retries delay attempt =
        (fn (attempt + retries), retries + 1,
          (List.range retries).map (fun i => delay * 2 ^ i)) := by
  intro retries
  induction retries with
  | zero =>
    intro attempt delay h
    obtain ⟨e, he, -⟩ := h attempt le_rfl (by omega)
    rw [withRetry, he]
    simp [he]
  | succ r IH =>
    intro attempt delay h
    obtain ⟨e, he, hrl⟩ := h attempt le_rfl (by omega)
    have hrec := IH (attempt + 1) (delay * 2) (fun i h1 h2 => h i (by omega) (by omega))
    rw [withRetry, he]
    simp only [hrl, if_pos]
    rw [hrec]
    refine Prod.ext ?_ (Prod.ext ?_ ?_)
    · show fn (attempt + 1 + r) = fn (attempt + (r + 1))
      congr 1
      omega
    · rfl
    · show delay :: (List.range r).map (fun i => delay * 2 * 2 ^ i) =
        (List.range (r + 1)).map (fun i => delay * 2 ^ i)
      rw [List.range_succ_eq_map, List.map_cons, List.map_map]
      refine congrArg₂ _ (by simp) ?_
      apply List.map_congr_left
      intro i _
      show delay * 2 * 2 ^ i = delay * 2 ^ (i + 1)
      rw [pow_succ]
      ring

/-- Claim C1: if every attempt of an operation wrapped by `withRetry` with
budget `retries` and initial delay `delay` fails with a rate-limit-classified
error, the operation is invoked exactly `retries + 1` times, the waits between
consecutive attempts are `delay, delay*2, delay*4, ...`, and the error of the
last attempt is propagated to the caller. -/
theorem withRetry_rate_limited_exhausts {α : Type} (fn : Nat → Except JsError α)
    (retries delay : Nat)
    (h : ∀ i, i ≤ retries → ∃ e, fn i = Except.error e ∧ isRateLimit e = true) :
    withRetry fn retries delay 0 =
      (fn retries, retries + 1, (List.range retries).map (fun i => delay * 2 ^ i)) := by
  have := withRetry_rate_limited_aux fn retries 0 delay
    (fun i h1 h2 => h i (by omega))
  simpa using this

/-- Witness for C1: a concrete operation that always fails with a 429 error,
run under the default budget. -/
theorem withRetry_rate_limited_exhausts_witness :
    withRetry (fun _ => (Except.error rateLimitError : Except JsError String)) 3 3000 0 =
      (Except.error rateLimitError, 3 + 1, (List.range 3).map (fun i => 3000 * 2 ^ i)) :=
  withRetry_rate_limited_exhausts (fun _ => Except.error rateLimitError) 3 3000
    (fun i _ => ⟨rateLimitError, rfl, by decide⟩)

/-- Claim C2: an operation wrapped by `withRetry` that fails with an error not
classified as rate-limit is invoked exactly once, no wait is performed, and
the very same error value is propagated. -/
theorem withRetry_non_rate_limit_once {α : Type} (fn : Nat → Except JsError α)
    (retries delay : Nat) (e : JsError) (hfn : fn 0 = Except.error e)
    (hrl : isRateLimit e = false) :
    withRetry fn retries delay 0 = (Except.error e, 1, []) := by
  cases retries with
  | zero => rw [withRetry, hfn]
  | succ r => rw [withRetry, hfn]; simp [hrl]

/-- Witness for C2: a concrete network-style failure is not retried. -/
theorem withRetry_non_rate_limit_once_witness :
    withRetry (fun _ => (Except.error sampleError : Except JsError String)) 3 3000 0 =
      (Except.error sampleError, 1, []) :=
  withRetry_non_rate_limit_once (fun _ => Except.error sampleError) 3 3000 sampleError
    rfl (by decide)

/-- Claim C10: for an index outside `[0, N)` the attempt body of
`generateCardHTML` faults before any request is sent — the result does not
depend on the external responses at all, the wrapped body is attempted exactly
once (the TypeError is not rate-limit-classified, so no retry and no wait
happens) and the fault is propagated.  Conversely, an index inside `[0, N)`
makes the outline lookup succeed. -/
theorem generateCardHTML_oob_spec :
    (∀ (bp : DesignBlueprint) (i : Nat) (f : Nat → Except JsError String),
      bp.cardOutlines.length ≤ i →
      generateCardHTML bp i f = (Except.error typeErrorUndefinedTitle, 1, [])) ∧
    isRateLimit typeErrorUndefinedTitle = false ∧
    (∀ (bp : DesignBlueprint) (i : Nat), i < bp.cardOutlines.length →
      ∃ card, bp.cardOutlines.get? i = some card) := by
  refine ⟨?_, by decide, ?_⟩
  · intro bp i f hlen
    have hnone : bp.cardOutlines.get? i = none := List.get?_eq_none.mpr hlen
    have hbody : generateCardBody bp i f 0 = Except.error typeErrorUndefinedTitle := by
      rw [generateCardBody, hnone]
    rw [generateCardHTML, withRetry, hbody]
    simp [show isRateLimit typeErrorUndefinedTitle = false from by decide]
  · intro bp i h
    exact ⟨bp.cardOutlines.get ⟨i, h⟩, List.get?_eq_get h⟩

/-- Witness for C10: index 5 in the two-card sample blueprint faults once,
whatever the external responses would be; index 0 looks up the cover. -/
theorem generateCardHTML_oob_spec_witness :
    generateCardHTML sampleBlueprint 5 (fun _ => Except.ok "ignored") =
      (Except.error typeErrorUndefinedTitle, 1, []) ∧
    (∃ card, sampleBlueprint.cardOutlines.get? 0 = some card) :=
  ⟨generateCardHTML_oob_spec.1 sampleBlueprint 5 (fun _ => Except.ok "ignored") (by decide),
   generateCardHTML_oob_spec.2.2 sampleBlueprint 0 (by decide)⟩

end Zskpv3

namespace Zskpv3

/- ### Workflow controller theorems -/

/-- Claim C3: a failed analysis run sends the workflow back to IDLE with the
formatted error message stored and no blueprint stored, and a failed card
render sends the workflow back to BLUEPRINT_READY with the error message
stored, the blueprint retained and the current card exactly as before the
attempt.  Both handlers are total functions of the state: no failure escapes
them. -/
theorem generation_failure_recovery :
    (∀ (s : AppState) (e : JsError),
      jsTrimStr s.inputText ≠ "" → s.blueprint = none →
      (handleAnalyzeRun s (Except.error e)).1.workflow = WorkflowState.IDLE ∧
      (handleAnalyzeRun s (Except.error e)).1.error = some (formatErrorMessage e) ∧
      (handleAnalyzeRun s (Except.error e)).1.blueprint = none ∧
      (handleAnalyzeRun s (Except.error e)).1.currentCard = s.currentCard) ∧
    (∀ (s : AppState) (bp : DesignBlueprint) (i : Nat) (e : JsError),
      s.blueprint = some bp →
      (handleGenerateCardRun s i (Except.error e)).1.workflow = WorkflowState.BLUEPRINT_READY ∧
      (handleGenerateCardRun s i (Except.error e)).1.error = some (formatErrorMessage e) ∧
      (handleGenerateCardRun s i (Except.error e)).1.blueprint = some bp ∧
      (handleGenerateCardRun s i (Except.error e)).1.currentCard = s.currentCard) := by
  constructor
  · intro s e hne hbp
    rw [handleAnalyzeRun, if_neg hne]
    simp [hbp]
  · intro s bp i e hbp
    rw [handleGenerateCardRun, hbp]
    simp [handleGenerateCardFinish]

/-- Witness for C3: concrete failed analysis and render runs on the sample
states. -/
theorem generation_failure_recovery_witness :
    ((handleAnalyzeRun sampleState (Except.error sampleError)).1.workflow = WorkflowState.IDLE ∧
     (handleAnalyzeRun sampleState (Except.error sampleError)).1.error =
       some (formatErrorMessage sampleError) ∧
     (handleAnalyzeRun sampleState (Except.error sampleError)).1.blueprint = none ∧
     (handleAnalyzeRun sampleState (Except.error sampleError)).1.currentCard =
       sampleState.currentCard) ∧
    ((handleGenerateCardRun readyState 0 (Except.error sampleError)).1.workflow =
       WorkflowState.BLUEPRINT_READY ∧
     (handleGenerateCardRun readyState 0 (Except.error sampleError)).1.error =
       some (formatErrorMessage sampleError) ∧
     (handleGenerateCardRun readyState 0 (Except.error sampleError)).1.blueprint =
       some sampleBlueprint ∧
     (handleGenerateCardRun readyState 0 (Except.error sampleError)).1.currentCard =
       readyState.currentCard) :=
  ⟨generation_failure_recovery.1 sampleState sampleError (by decide) (by decide),
   generation_failure_recovery.2 readyState sampleBlueprint 0 sampleError (by decide)⟩

/-- Counterexample for claim C5: the handler functions themselves do not check
the workflow state.  In a state whose workflow is ANALYZING and whose input is
non-empty, invoking `handleAnalyze` directly is not ignored: it issues a new
analysis request (and keeps the workflow in ANALYZING). -/
theorem handleAnalyze_in_flight_cex :
    analyzingState.workflow = WorkflowState.ANALYZING ∧
    (handleAnalyzeStart analyzingState).2 = true ∧
    (handleAnalyzeStart analyzingState).1.workflow = WorkflowState.ANALYZING := by
  decide

/-- Amended claim C5: the single-flight property is enforced by the interface,
not by the handlers.  Whenever the workflow is ANALYZING the analyze button is
disabled, and whenever it is GENERATING_CARD the card-generation buttons are
disabled, so no new analysis or render request can be issued through the UI
while one is in flight; but a direct call to a handler performs no such
check. -/
theorem ui_disables_in_flight :
    (∀ s : AppState, s.workflow = WorkflowState.ANALYZING →
      analyzeButtonDisabled s = true) ∧
    (∀ s : AppState, s.workflow = WorkflowState.GENERATING_CARD →
      cardButtonsDisabled s = true) := by
  constructor
  · intro s h
    simp [analyzeButtonDisabled, h]
  · intro s h
    simp [cardButtonsDisabled, h]

/-- Witness for the amended C5 on concrete in-flight states. -/
theorem ui_disables_in_flight_witness :
    analyzeButtonDisabled analyzingState = true ∧
    cardButtonsDisabled { sampleState with workflow := WorkflowState.GENERATING_CARD } = true :=
  ⟨ui_disables_in_flight.1 analyzingState rfl,
   ui_disables_in_flight.2 { sampleState with workflow := WorkflowState.GENERATING_CARD } rfl⟩

/-- Claim C6: from IDLE, invoking analysis with input consisting only of
whitespace is a complete no-op: the state (workflow, blueprint, current card,
error) is returned unchanged and no request is issued, whatever the external
outcome would have been. -/
theorem handleAnalyze_whitespace_noop
    (s : AppState) (r : Except JsError DesignBlueprint)
    (_hw : s.workflow = WorkflowState.IDLE)
    (hws : ∀ c ∈ s.inputText.data, isJsWS c = true) :
    handleAnalyzeRun s r = (s, false) := by
  have ht : jsTrimStr s.inputText = "" := by
    have hd : s.inputText.data.dropWhile isJsWS = [] :=
      List.dropWhile_eq_nil_iff.mpr hws
    rw [jsTrimStr, jsTrim, hd]
    rfl
  rw [handleAnalyzeRun.eq_def, if_pos ht]

/-- Witness for C6: the whitespace-only sample state is left untouched. -/
theorem handleAnalyze_whitespace_noop_witness :
    handleAnalyzeRun wsState (Except.error sampleError) = (wsState, false) :=
  handleAnalyze_whitespace_noop wsState (Except.error sampleError) rfl (by decide)

/-- Claim C7: with a blueprint of N outlines and a current card at the last
index N-1, `handleNext` is a no-op — the state is unchanged and no render
request is issued; with a current index strictly below N-1, `handleNext` is
exactly a render request for index current+1, and that request is issued. -/
theorem handleNext_boundary :
    (∀ (s : AppState) (bp : DesignBlueprint) (card : GeneratedCard)
       (r : Except JsError String),
      s.blueprint = some bp → s.currentCard = some card →
      card.index = bp.cardOutlines.length - 1 →
      handleNextRun s r = (s, false)) ∧
    (∀ (s : AppState) (bp : DesignBlueprint) (card : GeneratedCard)
       (r : Except JsError String),
      s.blueprint = some bp → s.currentCard = some card →
      card.index < bp.cardOutlines.length - 1 →
      handleNextRun s r = handleGenerateCardRun s (card.index + 1) r ∧
      (handleGenerateCardRun s (card.index + 1) r).2 = true) := by
  constructor
  · intro s bp card r hbp hcard hidx
    simp [handleNextRun, hbp, hcard, hidx]
  · intro s bp card r hbp hcard hidx
    refine ⟨by simp [handleNextRun, hbp, hcard, if_pos hidx], ?_⟩
    simp [handleGenerateCardRun, hbp]

/-- Witness for C7: in the two-card sample blueprint, "next" from card 1 is a
no-op and "next" from card 0 issues the render request for card 1. -/
theorem handleNext_boundary_witness :
    handleNextRun (cardState 1) (Except.ok "y") = (cardState 1, false) ∧
    (handleNextRun (cardState 0) (Except.ok "y") =
       handleGenerateCardRun (cardState 0) (0 + 1) (Except.ok "y") ∧
     (handleGenerateCardRun (cardState 0) (0 + 1) (Except.ok "y")).2 = true) :=
  ⟨handleNext_boundary.1 (cardState 1) sampleBlueprint
      { index := 1, html := "<p>x</p>", title := "t" } (Except.ok "y")
      rfl rfl (by decide),
   handleNext_boundary.2 (cardState 0) sampleBlueprint
      { index := 0, html := "<p>x</p>", title := "t" } (Except.ok "y")
      rfl rfl (by decide)⟩

/- ### Export pipeline theorems -/

/-- Claim C8: the export filter returns false exactly for stylesheet-link
nodes whose rule list access throws a security fault, and true for every
other node. -/
theorem exportFilter_characterization (node : DomNode) :
    exportFilter node = false ↔
      node.tagName = "LINK" ∧ node.sheet = some SheetAccess.throwsSecurityFault := by
  obtain ⟨tag, sheet⟩ := node
  rw [exportFilter]
  by_cases h : tag = "LINK"
  · subst h
    cases sheet with
    | none => simp
    | some a => cases a <;> simp
  · simp [h]

/-- Witness for C8: a cross-origin link node is dropped. -/
theorem exportFilter_characterization_witness :
    exportFilter { tagName := "LINK", sheet := some SheetAccess.throwsSecurityFault } = false ↔
      ({ tagName := "LINK", sheet := some SheetAccess.throwsSecurityFault } : DomNode).tagName
          = "LINK" ∧
      ({ tagName := "LINK", sheet := some SheetAccess.throwsSecurityFault } : DomNode).sheet
          = some SheetAccess.throwsSecurityFault :=
  exportFilter_characterization { tagName := "LINK", sheet := some SheetAccess.throwsSecurityFault }

/-- Counterexample for claim C9: the downloaded file is not named
`<sanitized-title>.png` — the code prepends a fixed label.  For the one-letter
title "a" the sanitized name would be "a.png", but the code produces
"知识卡-a.png". -/
theorem downloadName_claim_cex :
    ¬ (downloadName "a" = sanitizeTitle "a" ++ ".png") := by decide

/-- Amended claim C9: on export the downloaded file's name is
`知识卡-<sanitized-title>.png`, where the sanitized title has the same length
as the title and replaces exactly the filesystem-reserved characters
(\ / : * ? " < > |) by an underscore, leaving every other character in
place. -/
theorem downloadName_spec :
    (∀ t : String, downloadName t = "知识卡-" ++ sanitizeTitle t ++ ".png") ∧
    (∀ t : String, (sanitizeTitle t).data.length = t.data.length) ∧
    (∀ (t : String) (i : Nat),
      (sanitizeTitle t).data.get? i =
        (t.data.get? i).map (fun c => if illegalFilenameChar c then '_' else c)) := by
  refine ⟨fun t => rfl, fun t => ?_, fun t i => ?_⟩
  · simp [sanitizeTitle]
  · simp [sanitizeTitle]

end Zskpv3

namespace Zskpv3

/- ### Fence extraction theorems -/

/-- Claim C4: the extraction step of the card renderer.  (1) A response
wrapped as an html-labelled fenced block is extracted to exactly the inner
text, trimmed, whenever the inner text contains no backtick (so the wrapping
fences are unambiguous).  (2) A response wrapped in a plain unlabeled fence is
likewise extracted to the trimmed inner text, provided the inner text also
does not begin with the label "html" (which would turn the plain fence into a
labelled one).  (3) A response containing no fence at all is returned trimmed
but otherwise unchanged. -/
theorem extractChars_fence_spec :
    (∀ s : List Char, (∀ c ∈ s, c ≠ tick) →
      extractChars (fenceHtml ++ s ++ fence) = jsTrim s) ∧
    (∀ s : List Char, (∀ c ∈ s, c ≠ tick) → ¬ (htmlLabel <+: s) →
      extractChars (fence ++ s ++ fence) = jsTrim s) ∧
    (∀ t : List Char, ¬ (fence <:+: t) → extractChars t = jsTrim t) := by
  refine ⟨?_, ?_, ?_⟩
  · intro s hs
    have h1 : jsSplit fenceHtml (fenceHtml ++ s ++ fence) = [[], s ++ fence] :=
      jsSplit_fenceHtml_wrap s hs
    have h2 : jsSplit fence (s ++ fence) = [s, []] := jsSplit_fence_close s hs
    rw [extractChars, h1]
    simp [h2]
  · intro s hs hh
    have h0 : jsSplit fenceHtml (fence ++ s ++ fence) = [fence ++ s ++ fence] :=
      jsSplit_fenceHtml_plain s hs hh
    have h1 : jsSplit fence (fence ++ s ++ fence) = [[], s, []] :=
      jsSplit_fence_plain s hs
    have h2 : jsSplit fence s = [s] := jsSplit_fence_inner s hs
    have h1a : jsSplit fence (fence ++ (s ++ fence)) = [[], s, []] := by
      rw [← List.append_assoc]
      exact h1
    rw [extractChars, h0]
    simp [h1a, h2]
  · intro t hni
    have hni2 : ¬ (fenceHtml <:+: t) := by
      intro hyp
      obtain ⟨p, q, hpq⟩ := hyp
      refine hni ⟨p, htmlLabel ++ q, ?_⟩
      rw [← hpq, show fenceHtml = fence ++ htmlLabel from by decide]
      simp
    have h0 : jsSplit fenceHtml t = [t] := jsSplit_of_not_infix fenceHtml t hni2
    have h1 : jsSplit fence t = [t] := jsSplit_of_not_infix fence t hni
    rw [extractChars, h0]
    simp [h1]

/-- Witness for C4: concrete html-fenced, plainly fenced and unfenced
responses. -/
theorem extractChars_fence_spec_witness :
    extractChars (fenceHtml ++ " hello ".data ++ fence) = jsTrim " hello ".data ∧
    extractChars (fence ++ " inner doc ".data ++ fence) = jsTrim " inner doc ".data ∧
    extractChars "plain text".data = jsTrim "plain text".data :=
  ⟨extractChars_fence_spec.1 " hello ".data (by decide),
   extractChars_fence_spec.2.1 " inner doc ".data (by decide) (by decide),
   extractChars_fence_spec.2.2 "plain text".data (by decide)⟩

end Zskpv3
